import Mathlib

/-!
Shallow embedding of `fastui/components/display.py`: the display components
`DisplayMode`, `DisplayLookup`, `Display` and `Details`, together with the
field-resolution validator `Details._fill_fields` and the JSON-schema hook
`Details.__get_pydantic_json_schema__`.

Python dictionaries are modelled as ordered association lists (Python dicts
preserve insertion order); pydantic field metadata is modelled by `FieldInfo`
carrying the optional declared title; pydantic validation errors are modelled
with `Except String`.
-/

namespace FastUI

/-- Display mode for a value (the `DisplayMode` enum). -/
inductive DisplayMode
  | auto
  | plain
  | datetime
  | date
  | duration
  | as_title
  | markdown
  | json
  | inline_code
  | currency
  deriving DecidableEq

/-- Opaque event payload (`events.AnyEvent`); carried, never interpreted here. -/
structure AnyEvent where
  payload : String
  deriving DecidableEq

/-- JSON-serializable data (`types.JsonData`); carried, never interpreted here. -/
inductive Json
  | null
  | bool (b : Bool)
  | num (n : Int)
  | str (s : String)
  | arr (elements : List Json)
  | obj (entries : List (String × Json))

/-- The declared metadata of one pydantic model field: its optional title. -/
structure FieldInfo where
  title : Option String
  deriving DecidableEq

/-- A pydantic data model as seen by `Details._fill_fields`: its stored fields
(`model_fields`) and its computed fields (`model_computed_fields`), each an
insertion-ordered mapping from attribute name to metadata. -/
structure DataModel where
  model_fields : List (String × FieldInfo)
  model_computed_fields : List (String × FieldInfo)
  deriving DecidableEq

/-- `DisplayLookup`: how to display a value looked up from data.  Carries the
shared `DisplayBase` attributes (`mode`, `title`, `on_click`) plus `field`
and `table_width_percent`. -/
structure DisplayLookup where
  mode : Option DisplayMode
  title : Option String
  on_click : Option AnyEvent
  field : String
  table_width_percent : Option Int
  deriving DecidableEq

/-- `Display`: how to display an inline literal value.  Carries the shared
`DisplayBase` attributes plus `value` (the `type` discriminator is the
constant string "Display" and is not modelled as data). -/
structure Display where
  mode : Option DisplayMode
  title : Option String
  on_click : Option AnyEvent
  value : Json

/-- An element of `Details.fields`: `Union[DisplayLookup, Display]`. -/
inductive FieldDesc
  | lookup (d : DisplayLookup)
  | display (d : Display)

/-- The annotated-type constraint on `DisplayLookup.table_width_percent`:
`Interval(ge=0, le=100)` on an optional int. -/
def tableWidthOk : Option Int → Bool
  | none => true
  | some w => decide (0 ≤ w) && decide (w ≤ 100)

/-- Pydantic validation of a `DisplayLookup` at construction: the only
constraints are that `field` is a string (always true in the embedding) and
that `table_width_percent`, when present, lies in [0, 100]. -/
def DisplayLookup.validate (d : DisplayLookup) : Except String DisplayLookup :=
  if tableWidthOk d.table_width_percent then Except.ok d
  else Except.error "Input should be in the interval [0, 100]"

/-- Constructing a `DisplayLookup` from keyword arguments, running pydantic
validation. -/
def DisplayLookup.construct (field : String) (title : Option String)
    (mode : Option DisplayMode) (on_click : Option AnyEvent)
    (table_width_percent : Option Int) : Except String DisplayLookup :=
  DisplayLookup.validate
    { mode := mode, title := title, on_click := on_click,
      field := field, table_width_percent := table_width_percent }

/-- Structural validity of one element of a `fields` list (used when the
surrounding `Details` is validated from raw data). -/
def descValid : FieldDesc → Bool
  | FieldDesc.lookup d => tableWidthOk d.table_width_percent
  | FieldDesc.display _ => true

/-- The `Details` component: a data model plus an optional list of field
descriptors (and an optional class name; the `type` discriminator is the
constant string "Details"). -/
structure Details where
  data : DataModel
  fields : Option (List FieldDesc)
  class_name : Option String

/-- The Python dict merge `{**a, **b}` on ordered association lists: keys of
`a` in order (values overridden by `b` where the key also occurs in `b`),
followed by the keys of `b` not occurring in `a`, in order. -/
def dictMerge (a b : List (String × FieldInfo)) : List (String × FieldInfo) :=
  a.map (fun p =>
    match b.find? (fun q => q.1 == p.1) with
    | some q => (p.1, q.2)
    | none => p)
  ++ b.filter (fun q => !(a.any (fun p => p.1 == q.1)))

/-- Python truthiness of an optional string: `None` and the empty string are
falsy (this is the `pydantic_field.title` test in `_fill_fields`). -/
def pyTruthy : Option String → Bool
  | none => false
  | some s => s != ""

/-- The body of the explicit-fields loop of `Details._fill_fields`, applied to
one descriptor: a `DisplayLookup` whose `title` is unset gets the declared
title of the matching attribute of `data.model_fields` when that title is
truthy; everything else is left unchanged (the `Display` branch of the Python
loop is the no-op assignment `field.title = field.title`). -/
def fillTitle (m : DataModel) : FieldDesc → FieldDesc
  | FieldDesc.lookup d =>
    if d.title = none then
      match m.model_fields.find? (fun p => p.1 == d.field) with
      | some p =>
        if pyTruthy p.2.title then FieldDesc.lookup { d with title := p.2.title }
        else FieldDesc.lookup d
      | none => FieldDesc.lookup d
    else FieldDesc.lookup d
  | FieldDesc.display d => FieldDesc.display d

/-- The synthesized descriptor of the `fields is None` branch:
`DisplayLookup(field=name, title=field.title)`. -/
def synthLookup (p : String × FieldInfo) : FieldDesc :=
  FieldDesc.lookup
    { mode := none, title := p.2.title, on_click := none,
      field := p.1, table_width_percent := none }

/-- The `_fill_fields` model validator (`mode='after'`): when `fields` is
`None`, synthesize one `DisplayLookup` per attribute of the merged dict
`{**model_fields, **model_computed_fields}`; otherwise fill missing titles
in place. -/
def Details._fill_fields (d : Details) : Details :=
  let fields := dictMerge d.data.model_fields d.data.model_computed_fields
  match d.fields with
  | none => { d with fields := some (fields.map synthLookup) }
  | some fs => { d with fields := some (fs.map (fillTitle d.data)) }

/-- Constructing a `Details` from keyword arguments: pydantic first validates
the pieces (each descriptor's structural constraints), then runs the
`_fill_fields` model validator. -/
def Details.construct (data : DataModel) (fields : Option (List FieldDesc)) :
    Except String Details :=
  if (fields.getD []).all descValid then
    Except.ok (Details._fill_fields { data := data, fields := fields, class_name := none })
  else Except.error "validation error"

/-- The resolved `fields` of a construction attempt (`none` when construction
failed). -/
def resolvedFields : Except String Details → Option (List FieldDesc)
  | Except.ok d => d.fields
  | Except.error _ => none

/-- A JSON-schema document, reduced to the parts the code touches: the
`required` list plus the remaining content, carried opaquely. -/
structure JsonSchema where
  required : List String
  properties : List (String × Json)

/-- The `__get_pydantic_json_schema__` hook of `Details`: take the schema the
handler produced and append "fields" to its `required` list. -/
def Details.get_pydantic_json_schema (schema : JsonSchema) : JsonSchema :=
  { schema with required := schema.required ++ ["fields"] }

/-- A descriptor with its title erased (used to state that resolution changes
nothing but titles). -/
def stripTitle : FieldDesc → FieldDesc
  | FieldDesc.lookup d => FieldDesc.lookup { d with title := none }
  | FieldDesc.display d => FieldDesc.display { d with title := none }

/-- Whether a construction attempt succeeded (pydantic raised no
validation error). -/
def constructionSucceeds {α : Type} : Except String α → Bool
  | Except.ok _ => true
  | Except.error _ => false

/-- A concrete data model for evaluation: two stored attributes (one with a
declared title, one without) and one computed attribute with a declared
title. -/
def exampleModel : DataModel :=
  { model_fields := [("name", { title := some "Name" }), ("age", { title := none })],
    model_computed_fields := [("summary", { title := some "Summary" })] }

/-- A concrete explicit `fields` list: a lookup of the stored attribute
"name" with no title, and an inline display value with no title. -/
def exampleFields : List FieldDesc :=
  [FieldDesc.lookup { mode := none, title := none, on_click := none,
                      field := "name", table_width_percent := none },
   FieldDesc.display { mode := none, title := none, on_click := none,
                       value := Json.str "v" }]

/-- What resolving `exampleFields` against `exampleModel` produces: the
lookup gains the declared title "Name", the display is untouched. -/
def exampleResolvedFields : List FieldDesc :=
  [FieldDesc.lookup { mode := none, title := some "Name", on_click := none,
                      field := "name", table_width_percent := none },
   FieldDesc.display { mode := none, title := none, on_click := none,
                       value := Json.str "v" }]

/-- The `Details` produced by constructing from `exampleModel` with `fields`
unset: one synthesized lookup per attribute, stored first then computed. -/
def exampleResolved : Details :=
  { data := exampleModel,
    fields := some
      [FieldDesc.lookup { mode := none, title := some "Name", on_click := none,
                          field := "name", table_width_percent := none },
       FieldDesc.lookup { mode := none, title := none, on_click := none,
                          field := "age", table_width_percent := none },
       FieldDesc.lookup { mode := none, title := some "Summary", on_click := none,
                          field := "summary", table_width_percent := none }],
    class_name := none }

/-- A lookup descriptor naming an attribute that no data model in the
examples declares. -/
def ghostDesc : DisplayLookup :=
  { mode := none, title := none, on_click := none,
    field := "ghost", table_width_percent := none }

/-- A data model whose only attribute is computed, with a declared title. -/
def computedOnlyModel : DataModel :=
  { model_fields := [], model_computed_fields := [("x", { title := some "X" })] }

/-- A titleless lookup descriptor naming the computed attribute "x". -/
def xDesc : DisplayLookup :=
  { mode := none, title := none, on_click := none,
    field := "x", table_width_percent := none }

/-!  Helper lemmas. -/

/-- Erasing titles commutes the title-filling step away: resolution changes
nothing that `stripTitle` keeps. -/
theorem stripTitle_fillTitle (m : DataModel) (x : FieldDesc) :
    stripTitle (fillTitle m x) = stripTitle x := by
  cases x with
  | display d => rfl
  | lookup d =>
    by_cases ht : d.title = none
    · cases hf : m.model_fields.find? (fun p => p.1 == d.field) with
      | none =>
        have e1 : fillTitle m (FieldDesc.lookup d) = FieldDesc.lookup d := by
          simp [fillTitle, ht, hf]
        rw [e1]
      | some p =>
        by_cases hp : pyTruthy p.2.title = true
        · have e1 : fillTitle m (FieldDesc.lookup d)
              = FieldDesc.lookup { d with title := p.2.title } := by
            simp [fillTitle, ht, hf, hp]
          rw [e1]; rfl
        · have e1 : fillTitle m (FieldDesc.lookup d) = FieldDesc.lookup d := by
            simp [fillTitle, ht, hf, hp]
          rw [e1]
    · have e1 : fillTitle m (FieldDesc.lookup d) = FieldDesc.lookup d := by
        simp [fillTitle, ht]
      rw [e1]

/-- In an association list with pairwise-distinct keys (a Python dict),
looking a member's key up finds exactly that member. -/
theorem find?_key_of_mem_nodup (a : List (String × FieldInfo))
    (p : String × FieldInfo) (hmem : p ∈ a)
    (hnd : (a.map Prod.fst).Nodup) :
    a.find? (fun q => q.1 == p.1) = some p := by
  induction a with
  | nil => cases hmem
  | cons r rest ih =>
    rw [List.map_cons, List.nodup_cons] at hnd
    rcases List.mem_cons.mp hmem with h | h
    · subst h
      exact List.find?_cons_of_pos _ (by simp)
    · have hr : (r.1 == p.1) = false := by
        rw [beq_eq_false_iff_ne]
        intro e
        exact hnd.1 (by rw [e]; exact List.mem_map_of_mem _ h)
      simp only [List.find?, hr]
      exact ih h hnd.2

/-- Filling titles is idempotent on a single descriptor. -/
theorem fillTitle_idem (m : DataModel) (x : FieldDesc) :
    fillTitle m (fillTitle m x) = fillTitle m x := by
  cases x with
  | display d => rfl
  | lookup d =>
    by_cases ht : d.title = none
    · cases hf : m.model_fields.find? (fun p => p.1 == d.field) with
      | none =>
        have e1 : fillTitle m (FieldDesc.lookup d) = FieldDesc.lookup d := by
          simp [fillTitle, ht, hf]
        rw [e1]; exact e1
      | some p =>
        by_cases hp : pyTruthy p.2.title = true
        · have e1 : fillTitle m (FieldDesc.lookup d)
              = FieldDesc.lookup { d with title := p.2.title } := by
            simp [fillTitle, ht, hf, hp]
          rw [e1]
          have ht2 : ({ d with title := p.2.title } : DisplayLookup).title ≠ none := by
            cases p2t : p.2.title with
            | none => rw [p2t] at hp; simp [pyTruthy] at hp
            | some t => simp
          simp [fillTitle, ht2]
        · have e1 : fillTitle m (FieldDesc.lookup d) = FieldDesc.lookup d := by
            simp [fillTitle, ht, hf, hp]
          rw [e1]; exact e1
    · have e1 : fillTitle m (FieldDesc.lookup d) = FieldDesc.lookup d := by
        simp [fillTitle, ht]
      rw [e1]; exact e1

/-- When stored and computed attribute names are disjoint (a pydantic
invariant: a computed field may not share its name with a stored field), the
Python dict merge is plain concatenation. -/
theorem dictMerge_of_disjoint (a b : List (String × FieldInfo))
    (h : ∀ p ∈ a, ∀ q ∈ b, p.1 ≠ q.1) : dictMerge a b = a ++ b := by
  unfold dictMerge
  have h1 : (a.map fun p =>
      match b.find? (fun q => q.1 == p.1) with
      | some q => (p.1, q.2)
      | none => p) = a := by
    have he : ∀ p ∈ a, (match b.find? (fun q => q.1 == p.1) with
        | some q => (p.1, q.2)
        | none => p) = p := by
      intro p hp
      have hn : b.find? (fun q => q.1 == p.1) = none := by
        apply List.find?_eq_none.mpr
        intro q hq
        simp only [beq_iff_eq]
        exact fun e => h p hp q hq e.symm
      rw [hn]
    rw [List.map_congr_left he]
    exact List.map_id' a
  have h2 : b.filter (fun q => !(a.any fun p => p.1 == q.1)) = b := by
    apply List.filter_eq_self.mpr
    intro q hq
    simp only [Bool.not_eq_true', List.any_eq_false, beq_iff_eq]
    exact fun p hp => h p hp q hq
  rw [h1, h2]

/-!  Claim theorems. -/

/-- C1: with `fields` unset, resolution synthesizes exactly one
`DisplayLookup` per declared attribute of `data` (stored then computed, each
group in declaration order), with `field` the attribute name and `title` the
attribute's declared title when one exists, else unset. -/
theorem details_infers_all_attributes (m : DataModel)
    (hdisj : ∀ p ∈ m.model_fields, ∀ q ∈ m.model_computed_fields, p.1 ≠ q.1) :
    resolvedFields (Details.construct m none)
      = some ((m.model_fields ++ m.model_computed_fields).map (fun p =>
          FieldDesc.lookup { mode := none, title := p.2.title, on_click := none,
                             field := p.1, table_width_percent := none })) := by
  simp [Details.construct, Details._fill_fields, resolvedFields,
    dictMerge_of_disjoint _ _ hdisj]
  rfl

/-- C3: every successfully constructed `Details` has `fields` populated
(never `none`), whether or not the input supplied `fields`. -/
theorem constructed_details_fields_populated (m : DataModel)
    (ofs : Option (List FieldDesc)) (d : Details)
    (h : Details.construct m ofs = Except.ok d) : d.fields ≠ none := by
  unfold Details.construct at h
  by_cases hv : (ofs.getD []).all descValid
  · rw [if_pos hv] at h
    cases h
    cases hf : ofs <;> simp [Details._fill_fields, hf]
  · rw [if_neg hv] at h
    cases h

/-- C6: constructing a `DisplayLookup` with `table_width_percent` equal to -1
or 101 fails validation while 0 and 100 succeed; in general any value outside
[0, 100] is a validation error. -/
theorem table_width_percent_bounds :
    constructionSucceeds (DisplayLookup.construct "f" none none none (some (-1))) = false
    ∧ constructionSucceeds (DisplayLookup.construct "f" none none none (some 101)) = false
    ∧ constructionSucceeds (DisplayLookup.construct "f" none none none (some 0)) = true
    ∧ constructionSucceeds (DisplayLookup.construct "f" none none none (some 100)) = true
    ∧ ∀ f t mo oc w, (w < 0 ∨ 100 < w) →
        constructionSucceeds (DisplayLookup.construct f t mo oc (some w)) = false := by
  refine ⟨rfl, rfl, rfl, rfl, ?_⟩
  intro f t mo oc w hw
  have hc : tableWidthOk (some w) = false := by
    simp only [tableWidthOk, Bool.and_eq_false_iff, decide_eq_false_iff_not, not_le]
    omega
  simp [DisplayLookup.construct, DisplayLookup.validate, hc, constructionSucceeds]

/-- C6 witness: a concrete out-of-range width (-5) is rejected. -/
theorem table_width_percent_bounds_witness :
    ((-5 : Int) < 0 ∨ 100 < (-5 : Int))
    ∧ constructionSucceeds (DisplayLookup.construct "g" none none none (some (-5))) = false :=
  ⟨Or.inl (by decide),
    table_width_percent_bounds.2.2.2.2 "g" none none none (-5) (Or.inl (by decide))⟩

/-- C7 counterexample: the claim says an empty `field` string fails
validation, but the code declares `field: str` with no non-emptiness
constraint, so construction with `field` equal to the empty string
succeeds. -/
theorem empty_field_construction_succeeds :
    DisplayLookup.construct "" none none none none
      = Except.ok { mode := none, title := none, on_click := none,
                    field := "", table_width_percent := none } := rfl

/-- C7 amended: construction of a `DisplayLookup` succeeds exactly when the
`table_width_percent` bound holds; `field` may be any string, including the
empty string (no non-emptiness constraint is enforced). -/
theorem construction_succeeds_iff_width_ok (f : String) (t : Option String)
    (mo : Option DisplayMode) (oc : Option AnyEvent) (w : Option Int) :
    constructionSucceeds (DisplayLookup.construct f t mo oc w) = tableWidthOk w := by
  unfold DisplayLookup.construct DisplayLookup.validate
  cases h : tableWidthOk w <;> simp [h, constructionSucceeds]

/-- C9: the JSON-schema description emitted for `Details` always lists
"fields" in its `required` list, whatever the handler-produced base schema
required. -/
theorem details_schema_requires_fields (base : JsonSchema) :
    "fields" ∈ (Details.get_pydantic_json_schema base).required := by
  simp [Details.get_pydantic_json_schema]

/-- C1 witness: on `exampleModel` the stored/computed names are disjoint and
construction with `fields` unset yields the three synthesized lookups in
declaration order. -/
theorem details_infers_all_attributes_witness :
    (∀ p ∈ exampleModel.model_fields, ∀ q ∈ exampleModel.model_computed_fields, p.1 ≠ q.1)
    ∧ resolvedFields (Details.construct exampleModel none)
        = some
          [FieldDesc.lookup { mode := none, title := some "Name", on_click := none,
                              field := "name", table_width_percent := none },
           FieldDesc.lookup { mode := none, title := none, on_click := none,
                              field := "age", table_width_percent := none },
           FieldDesc.lookup { mode := none, title := some "Summary", on_click := none,
                              field := "summary", table_width_percent := none }] :=
  ⟨by decide, (details_infers_all_attributes exampleModel (by decide)).trans rfl⟩

/-- C3 witness: constructing from `exampleModel` with `fields` unset yields
`exampleResolved`, whose `fields` attribute is populated. -/
theorem constructed_details_fields_populated_witness :
    Details.construct exampleModel none = Except.ok exampleResolved
    ∧ exampleResolved.fields ≠ none :=
  ⟨rfl, constructed_details_fields_populated exampleModel none exampleResolved rfl⟩

/-- C2 counterexample: "x" is a declared computed attribute of
`computedOnlyModel` with declared title "X", yet resolving the explicit
title-less lookup of "x" leaves its title unset — the explicit-fields branch
consults only `model_fields`, never `model_computed_fields`, so the claim
fails as stated. -/
theorem computed_field_title_not_filled :
    computedOnlyModel.model_computed_fields = [("x", { title := some "X" })]
    ∧ xDesc.title = none
    ∧ resolvedFields (Details.construct computedOnlyModel (some [FieldDesc.lookup xDesc]))
        = some [FieldDesc.lookup xDesc]
    ∧ ([FieldDesc.lookup xDesc] : List FieldDesc)
        ≠ [FieldDesc.lookup { xDesc with title := some "X" }] := by
  refine ⟨rfl, rfl, rfl, ?_⟩
  intro h
  simp [xDesc] at h

/-- C2 amended: with an explicit `fields` list, a `DisplayLookup` whose
`title` is unset is assigned the declared title of the matching STORED
attribute (`data.model_fields` only — computed attributes are never
consulted) and only when that title is truthy (non-`None` and non-empty); a
descriptor whose `title` is already set is left unchanged. -/
theorem explicit_fields_title_fill (m : DataModel) (fs : List FieldDesc)
    (hv : fs.all descValid = true) :
    resolvedFields (Details.construct m (some fs)) = some (fs.map (fillTitle m))
    ∧ (∀ dl p, dl.title = none →
        m.model_fields.find? (fun q => q.1 == dl.field) = some p →
        pyTruthy p.2.title = true →
        fillTitle m (FieldDesc.lookup dl) = FieldDesc.lookup { dl with title := p.2.title })
    ∧ (∀ dl : DisplayLookup, dl.title ≠ none →
        fillTitle m (FieldDesc.lookup dl) = FieldDesc.lookup dl) := by
  refine ⟨by simp [Details.construct, hv, resolvedFields, Details._fill_fields], ?_, ?_⟩
  · intro dl p ht hf hp
    simp [fillTitle, ht, hf, hp]
  · intro dl ht
    simp [fillTitle, ht]

/-- C2 amended witness: on `exampleModel`, the explicit title-less lookup of
the stored attribute "name" (declared title "Name") resolves with that
title. -/
theorem explicit_fields_title_fill_witness :
    (exampleFields.all descValid = true)
    ∧ resolvedFields (Details.construct exampleModel (some exampleFields))
        = some (exampleFields.map (fillTitle exampleModel)) :=
  ⟨by decide, (explicit_fields_title_fill exampleModel exampleFields (by decide)).1⟩

/-- C4: with an explicit `fields` list, the resolved list has the same
length and, title changes aside, the same descriptors in the same order: no
insertion, removal or reordering. -/
theorem explicit_fields_preserve_length_order (m : DataModel)
    (fs rs : List FieldDesc)
    (h : resolvedFields (Details.construct m (some fs)) = some rs) :
    rs.length = fs.length ∧ rs.map stripTitle = fs.map stripTitle := by
  unfold Details.construct at h
  by_cases hv : ((some fs).getD []).all descValid
  · rw [if_pos hv] at h
    simp only [resolvedFields, Details._fill_fields] at h
    injection h with h'
    subst h'
    refine ⟨List.length_map _ _, ?_⟩
    rw [List.map_map]
    exact List.map_congr_left (fun x _ => stripTitle_fillTitle m x)
  · rw [if_neg hv] at h
    simp [resolvedFields] at h

/-- C4 witness: resolving `exampleFields` against `exampleModel` produces
`exampleResolvedFields`, of equal length and identical up to titles. -/
theorem explicit_fields_preserve_length_order_witness :
    resolvedFields (Details.construct exampleModel (some exampleFields))
      = some exampleResolvedFields
    ∧ (exampleResolvedFields.length = exampleFields.length
       ∧ exampleResolvedFields.map stripTitle = exampleFields.map stripTitle) :=
  ⟨rfl, explicit_fields_preserve_length_order exampleModel exampleFields
    exampleResolvedFields rfl⟩

/-- C5: an explicit `DisplayLookup` whose `field` matches no declared
attribute (stored or computed) raises no error — construction succeeds and
the descriptor passes through with its unset title left unset. -/
theorem unmatched_field_passes_through (m : DataModel) (fs : List FieldDesc)
    (dl : DisplayLookup) (hv : fs.all descValid = true)
    (hmem : FieldDesc.lookup dl ∈ fs)
    (hnomatch : ∀ p ∈ m.model_fields ++ m.model_computed_fields, p.1 ≠ dl.field)
    (ht : dl.title = none) :
    constructionSucceeds (Details.construct m (some fs)) = true
    ∧ fillTitle m (FieldDesc.lookup dl) = FieldDesc.lookup dl
    ∧ resolvedFields (Details.construct m (some fs)) = some (fs.map (fillTitle m)) := by
  have hfind : m.model_fields.find? (fun p => p.1 == dl.field) = none := by
    apply List.find?_eq_none.mpr
    intro q hq
    simp only [beq_iff_eq]
    exact hnomatch q (List.mem_append.mpr (Or.inl hq))
  refine ⟨?_, ?_, ?_⟩
  · simp [Details.construct, hv, constructionSucceeds]
  · simp [fillTitle, ht, hfind]
  · simp [Details.construct, hv, resolvedFields, Details._fill_fields]

/-- C5 witness: the lookup of the undeclared attribute "ghost" constructs
fine against `exampleModel` and is passed through unchanged. -/
theorem unmatched_field_passes_through_witness :
    ([FieldDesc.lookup ghostDesc].all descValid = true)
    ∧ (∀ p ∈ exampleModel.model_fields ++ exampleModel.model_computed_fields,
        p.1 ≠ ghostDesc.field)
    ∧ (constructionSucceeds (Details.construct exampleModel (some [FieldDesc.lookup ghostDesc])) = true
       ∧ fillTitle exampleModel (FieldDesc.lookup ghostDesc) = FieldDesc.lookup ghostDesc
       ∧ resolvedFields (Details.construct exampleModel (some [FieldDesc.lookup ghostDesc]))
           = some ([FieldDesc.lookup ghostDesc].map (fillTitle exampleModel))) :=
  ⟨by decide, by decide,
    unmatched_field_passes_through exampleModel [FieldDesc.lookup ghostDesc] ghostDesc
      (by decide) (by simp) (by decide) rfl⟩

/-- C8: resolution of an explicit `fields` list changes at most `title`, and
only on descriptors whose `title` was unset: `mode`, `on_click`, `field` and
`table_width_percent` of a lookup are preserved, a set title is never
overwritten, and a `Display` (inline value included) is left entirely
untouched. -/
theorem resolution_mutates_only_titles (m : DataModel) (fs : List FieldDesc)
    (hv : fs.all descValid = true) :
    resolvedFields (Details.construct m (some fs)) = some (fs.map (fillTitle m))
    ∧ (∀ dl : DisplayLookup, ∃ t2 : Option String,
        fillTitle m (FieldDesc.lookup dl)
          = FieldDesc.lookup { mode := dl.mode, title := t2, on_click := dl.on_click,
                               field := dl.field, table_width_percent := dl.table_width_percent }
        ∧ (dl.title ≠ none → t2 = dl.title))
    ∧ (∀ dsp : Display, fillTitle m (FieldDesc.display dsp) = FieldDesc.display dsp) := by
  refine ⟨by simp [Details.construct, hv, resolvedFields, Details._fill_fields],
    ?_, fun dsp => rfl⟩
  intro dl
  by_cases ht : dl.title = none
  · cases hf : m.model_fields.find? (fun p => p.1 == dl.field) with
    | none =>
      refine ⟨dl.title, ?_, fun _ => rfl⟩
      have e1 : fillTitle m (FieldDesc.lookup dl) = FieldDesc.lookup dl := by
        simp [fillTitle, ht, hf]
      rw [e1]
    | some p =>
      by_cases hp : pyTruthy p.2.title = true
      · refine ⟨p.2.title, ?_, fun hn => absurd ht hn⟩
        simp [fillTitle, ht, hf, hp]
      · refine ⟨dl.title, ?_, fun _ => rfl⟩
        have e1 : fillTitle m (FieldDesc.lookup dl) = FieldDesc.lookup dl := by
          simp [fillTitle, ht, hf, hp]
        rw [e1]
  · refine ⟨dl.title, ?_, fun _ => rfl⟩
    have e1 : fillTitle m (FieldDesc.lookup dl) = FieldDesc.lookup dl := by
      simp [fillTitle, ht]
    rw [e1]

/-- C8 witness: resolving `exampleFields` against `exampleModel` is exactly
the descriptor-wise title fill. -/
theorem resolution_mutates_only_titles_witness :
    (exampleFields.all descValid = true)
    ∧ resolvedFields (Details.construct exampleModel (some exampleFields))
        = some (exampleFields.map (fillTitle exampleModel)) :=
  ⟨by decide, (resolution_mutates_only_titles exampleModel exampleFields (by decide)).1⟩

/-- C10: the field-resolution step is idempotent — re-running `_fill_fields`
on an already resolved `Details` changes nothing.  (The two hypotheses are
pydantic dict invariants: stored keys are pairwise distinct, and a computed
field may not share its name with a stored field.) -/
theorem fill_fields_idempotent (m : DataModel) (ofs : Option (List FieldDesc))
    (hdisj : ∀ p ∈ m.model_fields, ∀ q ∈ m.model_computed_fields, p.1 ≠ q.1)
    (hnd : (m.model_fields.map Prod.fst).Nodup) :
    Details._fill_fields (Details._fill_fields { data := m, fields := ofs, class_name := none })
      = Details._fill_fields { data := m, fields := ofs, class_name := none } := by
  cases ofs with
  | some fs =>
    simp only [Details._fill_fields, Details.mk.injEq, List.map_map, true_and, and_true]
    congr 1
    exact List.map_congr_left (fun x _ => fillTitle_idem m x)
  | none =>
    simp only [Details._fill_fields, Details.mk.injEq, List.map_map, true_and, and_true]
    rw [dictMerge_of_disjoint _ _ hdisj]
    congr 1
    apply List.map_congr_left
    intro p hp
    show fillTitle m (synthLookup p) = synthLookup p
    rcases List.mem_append.mp hp with hs | hc
    · cases p2t : p.2.title with
      | some t => simp [synthLookup, fillTitle, p2t]
      | none =>
        have hfind := find?_key_of_mem_nodup m.model_fields p hs hnd
        simp [synthLookup, fillTitle, p2t, hfind, pyTruthy]
    · cases p2t : p.2.title with
      | some t => simp [synthLookup, fillTitle, p2t]
      | none =>
        have hfind : m.model_fields.find? (fun q => q.1 == p.1) = none := by
          apply List.find?_eq_none.mpr
          intro q hq
          simp only [beq_iff_eq]
          exact fun e => hdisj q hq p hc e
        simp [synthLookup, fillTitle, p2t, hfind]

/-- C10 witness: on `exampleModel` with `fields` unset, re-running the
resolution step leaves the result unchanged. -/
theorem fill_fields_idempotent_witness :
    (∀ p ∈ exampleModel.model_fields, ∀ q ∈ exampleModel.model_computed_fields, p.1 ≠ q.1)
    ∧ ((exampleModel.model_fields.map Prod.fst).Nodup)
    ∧ Details._fill_fields (Details._fill_fields
          { data := exampleModel, fields := none, class_name := none })
        = Details._fill_fields { data := exampleModel, fields := none, class_name := none } :=
  ⟨by decide, by decide,
    fill_fields_idempotent exampleModel none (by decide) (by decide)⟩

end FastUI
